import Mathlib

/-!
Verification development for the klein 3D PGA (projective geometric algebra) core.

The repository source under verification consists of `public/klein/plane.hpp`
(the `kln::plane` entity) and the ground-truth test file for the geometric
product engine (`multivector-gp`).  The geometric-product kernels
(`detail/gp.hpp`), sandwich kernels (`detail/sandwich.hpp`), the SSE helper
header (`detail/sse.hpp`) and the remaining entity headers (`point.hpp`,
`line.hpp`, `rotor.hpp`, `translator.hpp`, `motor.hpp`) are not part of the
visible sources; where a claim depends on them they are modelled from the
specification, which prescribes the multiplication rules exactly: the product
is the bilinear extension of the basis-blade product determined by the
anti-commutation rules e_i e_j = -e_j e_i (i different from j) together with
the degenerate metric e_0^2 = 0 and e_1^2 = e_2^2 = e_3^2 = 1.

Coefficients are modelled as exact rationals.  All concrete test scenarios in
the repository use small integers, for which 32-bit float arithmetic is exact,
so the rational model agrees with the code on every ground-truth evaluation.
The hardware approximate primitives (`_mm_rsqrt_ps`, `_mm_rcp_ps`) are
architecture-defined approximations; they are modelled as abstract function
parameters, with exactness or error hypotheses stated explicitly where a
theorem needs them.
-/

namespace Klein

/-- Bit `i` of the natural number `n` (0 or 1).  A basis blade of the algebra
is encoded as a 4-bit mask, bit `i` meaning the generator `e_i` is present. -/
def bitn (n i : Nat) : Nat := n / 2 ^ i % 2

/-- Bitwise xor of two 4-bit blade masks, written with plain arithmetic so
that all evaluations reduce by `norm_num`.  The product of blades `a` and `b`
lands on the blade `x4 a b` (symmetric difference of the generator sets). -/
def x4 (a b : Nat) : Nat :=
  (bitn a 0 + bitn b 0) % 2 + 2 * ((bitn a 1 + bitn b 1) % 2)
    + 4 * ((bitn a 2 + bitn b 2) % 2) + 8 * ((bitn a 3 + bitn b 3) % 2)

/-- Number of transpositions needed to interleave the (ascending) generator
string of blade `a` with that of blade `b`: the count of pairs `i > j` with
`e_i` in `a` and `e_j` in `b`.  Each transposition contributes a factor `-1`
by the anti-commutation rule `e_i e_j = -e_j e_i`. -/
def invCount (a b : Nat) : Nat :=
  bitn a 1 * bitn b 0 + bitn a 2 * bitn b 0 + bitn a 3 * bitn b 0
    + bitn a 2 * bitn b 1 + bitn a 3 * bitn b 1 + bitn a 3 * bitn b 2

/-- Structure constant of the geometric product on basis blades: the product
of blades `a` and `b` is `gsign a b` times the blade `x4 a b`.  It is `0`
whenever both blades contain the degenerate generator `e_0` (since
`e_0^2 = 0`), and otherwise `(-1)` to the number of transpositions; the
shared non-degenerate generators contract to `+1` (`e_1^2=e_2^2=e_3^2=1`). -/
def gsign (a b : Nat) : ℤ :=
  if bitn a 0 * bitn b 0 = 1 then 0 else (-1) ^ invCount a b

/-- The geometric product on coefficient vectors indexed by blade masks
`0..15`.  Component `k` collects every pair of blades whose product lands on
blade `k`; the second factor's blade is determined as `x4 A k`. -/
def gpN (x y : Nat → ℚ) : Nat → ℚ :=
  fun k => Finset.sum (Finset.range 16) fun A =>
    ((gsign A (x4 A k) : ℤ) : ℚ) * x A * y (x4 A k)

/-- An element of the even subalgebra (the `Motor` shape of the spec):
scalar, the three degenerate bivectors e01,e02,e03, the three Euclidean
bivectors e12,e31,e23, and the pseudoscalar e0123. -/
structure Ev where
  s : ℚ
  e01 : ℚ
  e02 : ℚ
  e03 : ℚ
  e12 : ℚ
  e31 : ℚ
  e23 : ℚ
  e0123 : ℚ

/-- An element of the odd part of the algebra: the vector grade (a Plane
shape) e0,e1,e2,e3 together with the trivector grade (a Point shape)
e021,e013,e032,e123. -/
structure Od where
  e0 : ℚ
  e1 : ℚ
  e2 : ℚ
  e3 : ℚ
  e021 : ℚ
  e013 : ℚ
  e032 : ℚ
  e123 : ℚ

/-- Coefficient vector of an even element over sorted blade masks.  The klein
blade `e31` is the negative of the sorted blade `e13` (mask 10), and masks of
odd grade carry coefficient 0. -/
def evN (m : Ev) : Nat → ℚ := fun n =>
  if n = 0 then m.s else if n = 3 then m.e01 else if n = 5 then m.e02
    else if n = 9 then m.e03 else if n = 6 then m.e12 else if n = 10 then -m.e31
    else if n = 12 then m.e23 else if n = 15 then m.e0123 else 0

/-- Coefficient vector of an odd element over sorted blade masks.  The klein
trivectors are oriented as `e021 = -e012` (mask 7), `e013 = +e013` (mask 11),
`e032 = -e023` (mask 13), `e123 = +e123` (mask 14). -/
def odN (o : Od) : Nat → ℚ := fun n =>
  if n = 1 then o.e0 else if n = 2 then o.e1 else if n = 4 then o.e2
    else if n = 8 then o.e3 else if n = 7 then -o.e021 else if n = 11 then o.e013
    else if n = 13 then -o.e032 else if n = 14 then o.e123 else 0

/-- Read back an even element from a coefficient vector. -/
def evOfN (f : Nat → ℚ) : Ev :=
  ⟨f 0, f 3, f 5, f 9, f 6, -(f 10), f 12, f 15⟩

/-- Read back an odd element from a coefficient vector. -/
def odOfN (f : Nat → ℚ) : Od :=
  ⟨f 1, f 2, f 4, f 8, -(f 7), f 11, -(f 13), f 14⟩

/-- Geometric product of two odd elements (lands in the even subalgebra). -/
def gpOO (X Y : Od) : Ev := evOfN (gpN (odN X) (odN Y))

/-- Geometric product of an even element and an odd element. -/
def gpEO (M : Ev) (X : Od) : Od := odOfN (gpN (evN M) (odN X))

/-- Geometric product of an odd element and an even element. -/
def gpOE (X : Od) (M : Ev) : Od := odOfN (gpN (odN X) (evN M))

/-- Geometric product of two even elements. -/
def gpEE (M N : Ev) : Ev := evOfN (gpN (evN M) (evN N))

/-- The `kln::plane` entity of `public/klein/plane.hpp`.  The four fields are
the four lanes of the member `__m128 p0_`, lane 0 first: lane 0 holds the
`e0` coefficient `d`, lanes 1,2,3 hold the `e1`,`e2`,`e3` coefficients
`a`,`b`,`c` (see the constructor `_mm_set_ps(c, b, a, d)`). -/
structure plane where
  l0 : ℚ
  l1 : ℚ
  l2 : ℚ
  l3 : ℚ

/-- The component constructor `plane(float a, float b, float c, float d)`:
it performs the rearrangement `p0_ = _mm_set_ps(c, b, a, d)`, so lane 0
receives `d`. -/
def plane.ofABCD (a b c d : ℚ) : plane := ⟨d, a, b, c⟩

/-- The bulk-load constructor `plane(float* data)`: `_mm_loadu_ps(data)`
reads four packed floats, `data[0]` into lane 0 and so on; the documented
memory order is `(d, a, b, c)` with `d` at the lowest address. -/
def plane.ofData (data : Fin 4 → ℚ) : plane := ⟨data 0, data 1, data 2, data 3⟩

/-- The member `plane::load(float* data)`: same unaligned load
`p0_ = _mm_loadu_ps(data)` as the pointer constructor. -/
def plane.load (data : Fin 4 → ℚ) : plane := ⟨data 0, data 1, data 2, data 3⟩

/-- Accessor `plane::x()`: stores the four lanes and returns `out[1]`. -/
def plane.x (p : plane) : ℚ := p.l1

/-- Accessor `plane::e1()`: returns `x()`. -/
def plane.e1 (p : plane) : ℚ := p.x

/-- Accessor `plane::y()`: stores the four lanes and returns `out[2]`. -/
def plane.y (p : plane) : ℚ := p.l2

/-- Accessor `plane::e2()`: returns `y()`. -/
def plane.e2 (p : plane) : ℚ := p.y

/-- Accessor `plane::z()`: stores the four lanes and returns `out[3]`. -/
def plane.z (p : plane) : ℚ := p.l3

/-- Accessor `plane::e3()`: returns `z()`. -/
def plane.e3 (p : plane) : ℚ := p.z

/-- Accessor `plane::d()`: `_mm_store_ss` of lane 0. -/
def plane.d (p : plane) : ℚ := p.l0

/-- Accessor `plane::e0()`: returns `d()`. -/
def plane.e0 (p : plane) : ℚ := p.d

/-- A plane as an odd multivector `d e0 + a e1 + b e2 + c e3` (the blade
assignment documented at the top of `plane.hpp`). -/
def planeOd (p : plane) : Od := ⟨p.l0, p.l1, p.l2, p.l3, 0, 0, 0, 0⟩

/-- Modelled from the spec: the `kln::point` entity (`point.hpp` is not among
the visible sources).  A point is the trivector
`x e032 + y e013 + z e021 + w e123`; the data model fixes the weight `w` to 1
for finite points, which the three-argument constructor below enforces. -/
structure point where
  x : ℚ
  y : ℚ
  z : ℚ
  w : ℚ

/-- Modelled from the spec: the `point(float x, float y, float z)`
constructor used by the tests, with implicit weight 1. -/
def point.mk3 (x y z : ℚ) : point := ⟨x, y, z, 1⟩

/-- A point as an odd multivector. -/
def pointOd (P : point) : Od := ⟨0, 0, 0, 0, P.z, P.y, P.x, P.w⟩

/-- Modelled from the spec: the `kln::line` entity (`line.hpp` is not among
the visible sources).  A line is the bivector
`a e01 + b e02 + c e03 + d e23 + e e31 + f e12`, with the six-argument
constructor taking the coefficients in exactly that order (as the test
comment `a*e01 + b*e02 + c*e03 + d*e23 + e*e31 + f*e12` documents). -/
structure line where
  e01 : ℚ
  e02 : ℚ
  e03 : ℚ
  e23 : ℚ
  e31 : ℚ
  e12 : ℚ

/-- A line as an even-subalgebra element with zero scalar and pseudoscalar. -/
def lineEv (l : line) : Ev := ⟨0, l.e01, l.e02, l.e03, l.e12, l.e31, l.e23, 0⟩

/-- Modelled from the spec: the `kln::rotor` entity (`rotor.hpp` is not among
the visible sources).  A rotor is the even element
`s + e23 e_23 + e31 e_31 + e12 e_12` (member `p1_`, lane 0 = scalar). -/
structure rotor where
  s : ℚ
  e23 : ℚ
  e31 : ℚ
  e12 : ℚ

/-- A rotor as an even-subalgebra element. -/
def rotorEv (r : rotor) : Ev := ⟨r.s, 0, 0, 0, r.e12, r.e31, r.e23, 0⟩

/-- Modelled from the spec: the `kln::translator` entity (`translator.hpp` is
not among the visible sources).  A translator is the even element
`1 + e01 e_01 + e02 e_02 + e03 e_03` with the scalar implicitly 1. -/
structure translator where
  e01 : ℚ
  e02 : ℚ
  e03 : ℚ

/-- A translator as an even-subalgebra element (implicit scalar 1). -/
def translatorEv (t : translator) : Ev := ⟨1, t.e01, t.e02, t.e03, 0, 0, 0, 0⟩

/-- Modelled from the spec: the `kln::motor` entity (`motor.hpp` is not among
the visible sources).  The eight-argument constructor takes the coefficients
in the order scalar, e23, e31, e12, e01, e02, e03, e0123. -/
structure motor where
  s : ℚ
  e23 : ℚ
  e31 : ℚ
  e12 : ℚ
  e01 : ℚ
  e02 : ℚ
  e03 : ℚ
  e0123 : ℚ

/-- Repackage an even-subalgebra element as a motor. -/
def motorOfEv (m : Ev) : motor :=
  ⟨m.s, m.e23, m.e31, m.e12, m.e01, m.e02, m.e03, m.e0123⟩

/-- Modelled from the spec: the geometric product `plane * point`
(`detail/gp.hpp` is not among the visible sources; the spec prescribes the
product as the sparse specialisation of the blade multiplication table). -/
def planeMulPoint (p : plane) (P : point) : motor :=
  motorOfEv (gpOO (planeOd p) (pointOd P))

/-- Modelled from the spec: the geometric product `point * plane`. -/
def pointMulPlane (P : point) (p : plane) : motor :=
  motorOfEv (gpOO (pointOd P) (planeOd p))

/-- Modelled from the spec: the geometric product `point * point`. -/
def pointMulPoint (P Q : point) : motor :=
  motorOfEv (gpOO (pointOd P) (pointOd Q))

/-- Modelled from the spec: the geometric product `plane * plane`. -/
def planeMulPlane (p q : plane) : motor :=
  motorOfEv (gpOO (planeOd p) (planeOd q))

/-- Modelled from the spec: the geometric product `line * line`. -/
def lineMulLine (l m : line) : motor :=
  motorOfEv (gpEE (lineEv l) (lineEv m))

/-- Modelled from the spec: the composition `rotor * translator`. -/
def rotorMulTranslator (r : rotor) (t : translator) : motor :=
  motorOfEv (gpEE (rotorEv r) (translatorEv t))

/-- Modelled from the spec: the composition `translator * rotor`. -/
def translatorMulRotor (t : translator) (r : rotor) : motor :=
  motorOfEv (gpEE (translatorEv t) (rotorEv r))

/-- Modelled from the spec: the composition `motor * motor`. -/
def motorMulMotor (m n : motor) : motor :=
  motorOfEv (gpEE ⟨m.s, m.e01, m.e02, m.e03, m.e12, m.e31, m.e23, m.e0123⟩
    ⟨n.s, n.e01, n.e02, n.e03, n.e12, n.e31, n.e23, n.e0123⟩)

/-- Extract the plane (vector-grade) components of an odd element. -/
def planeOfOd (o : Od) : plane := ⟨o.e0, o.e1, o.e2, o.e3⟩

/-- Extract the point (trivector-grade) components of an odd element. -/
def pointOfOd (o : Od) : point := ⟨o.e032, o.e013, o.e021, o.e123⟩

/-- Extract the line (bivector-grade) components of an even element. -/
def lineOfEv (m : Ev) : line := ⟨m.e01, m.e02, m.e03, m.e23, m.e31, m.e12⟩

/-- Modelled from the spec: the reflection kernel `detail::sw00`
(`detail/sandwich.hpp` is not among the visible sources).  Per the doc
comment of `plane::operator()(plane)` in `plane.hpp` it is the optimized
routine equivalent to the expression `p1 p2 p1`; the intermediate product
`p1 p2` of two odd elements lies in the even subalgebra. -/
def planeApplyPlane (p q : plane) : plane :=
  planeOfOd (gpEO (gpOO (planeOd p) (planeOd q)) (planeOd p))

/-- Modelled from the spec: the reflection kernels `detail::sw10`/`sw20`
composed by `plane::operator()(line)`.  Per the doc comment in `plane.hpp`
the routine is equivalent to the expression `p l p`; the intermediate
product `p l` of a vector and a bivector is odd. -/
def planeApplyLine (p : plane) (l : line) : line :=
  lineOfEv (gpOO (gpOE (planeOd p) (lineEv l)) (planeOd p))

/-- Modelled from the spec: the reflection kernel `detail::sw30` used by
`plane::operator()(point)`.  Per the doc comment in `plane.hpp` the routine
is equivalent to the expression `p P p`; the intermediate product `p P` of a
vector and a trivector is even. -/
def planeApplyPoint (p : plane) (P : point) : point :=
  pointOfOd (gpEO (gpOO (planeOd p) (pointOd P)) (planeOd p))

/-- The identity rotor: scalar 1 and vanishing bivector (the unit of the
even-subalgebra group of the spec). -/
def rotorIdentity : rotor := ⟨1, 0, 0, 0⟩

/-- Modelled from the spec: `detail::hi_dp` of `detail/sse.hpp` (not among
the visible sources) computes the dot product of the upper three lanes — the
`a`, `b`, `c` coefficients — leaving out the degenerate `d` lane; `norm()`
uses it as the squared magnitude of the vector part. -/
def hi_dp (p : plane) : ℚ := p.l1 * p.l1 + p.l2 * p.l2 + p.l3 * p.l3

/-- Modelled from the spec: `detail::hi_dp_bc` is the same upper-three-lane
dot product broadcast to all four lanes (modelled by its scalar value). -/
def hi_dp_bc (p : plane) : ℚ := p.l1 * p.l1 + p.l2 * p.l2 + p.l3 * p.l3

/-- The `KLEIN_SSE_4_1` path of `plane::normalize()`:
`inv_norm = _mm_rsqrt_ps(hi_dp_bc(p0_, p0_))`, then
`_mm_blend_ps(inv_norm, _mm_set_ss(1.f), 1)` replaces lane 0 of the inverse
norm by exactly `1.0`, and finally `p0_ = _mm_mul_ps(inv_norm, p0_)`.  The
hardware approximate reciprocal square root is the abstract parameter
`rsq`. -/
def plane.normalizeBlend (rsq : ℚ → ℚ) (p : plane) : plane :=
  ⟨1 * p.l0, rsq (hi_dp_bc p) * p.l1, rsq (hi_dp_bc p) * p.l2,
    rsq (hi_dp_bc p) * p.l3⟩

/-- The portable fallback path of `plane::normalize()` (no `KLEIN_SSE_4_1`):
`inv_norm = _mm_add_ps(inv_norm, _mm_set_ss(1.f))` adds `1.0` to lane 0 of
the inverse norm (instead of replacing the lane), then multiplies. -/
def plane.normalizeAdd (rsq : ℚ → ℚ) (p : plane) : plane :=
  ⟨(rsq (hi_dp_bc p) + 1) * p.l0, rsq (hi_dp_bc p) * p.l1,
    rsq (hi_dp_bc p) * p.l2, rsq (hi_dp_bc p) * p.l3⟩

/-- The member `plane::norm()`:
`_mm_rcp_ss(_mm_rsqrt_ss(hi_dp(p0_, p0_)))` — the approximate reciprocal
(parameter `rc`) of the approximate reciprocal square root (parameter `rsq`)
of the vector-part dot product. -/
def plane.norm (rsq rc : ℚ → ℚ) (p : plane) : ℚ := rc (rsq (hi_dp p))

/-- The operators `plane::operator*=(float)` and `operator*(plane, float)`:
`_mm_mul_ps(p0_, _mm_set1_ps(s))`, multiplying every lane by `s`. -/
def plane.mulScalar (p : plane) (s : ℚ) : plane :=
  ⟨p.l0 * s, p.l1 * s, p.l2 * s, p.l3 * s⟩

/-- The operators `plane::operator/=(float)` and `operator/(plane, float)`:
`_mm_mul_ps(p0_, _mm_rcp_ps(_mm_set1_ps(s)))`, multiplying every lane by the
hardware approximate reciprocal of `s` (abstract parameter `rc`) instead of
dividing. -/
def plane.divScalar (rc : ℚ → ℚ) (p : plane) (s : ℚ) : plane :=
  ⟨p.l0 * rc s, p.l1 * rc s, p.l2 * rc s, p.l3 * rc s⟩

/-- The operators `plane::operator/=(int)` and `operator/(plane, int)`: cast
the integer to float and defer to the float version. -/
def plane.divScalarInt (rc : ℚ → ℚ) (p : plane) (n : ℤ) : plane :=
  plane.divScalar rc p (n : ℚ)

/-- A concrete model of the approximate reciprocal square root that is exact
at the input 4 (where the true value 1/2 is representable), used for the
counterexample evaluations. -/
def rsq0 : ℚ → ℚ := fun s => if s = 4 then 1 / 2 else 1

/-- A concrete model of the approximate reciprocal square root that is exact
at the inputs 25 and 1, used for witnesses. -/
def rsqW : ℚ → ℚ := fun s => if s = 25 then 1 / 5 else if s = 1 then 1 else 0

/-- A concrete model of the approximate reciprocal that is exact at the
input 1, used for witnesses. -/
def rcW : ℚ → ℚ := fun s => if s = 1 then 1 else 0

/-- A concrete model of the approximate reciprocal that is exact at the
input 1/5, used for witnesses. -/
def rcW5 : ℚ → ℚ := fun s => if s = 1 / 5 then 5 else 0

/-- A concrete model of the hardware approximate reciprocal at 3: the true
reciprocal 1/3 is not exactly representable in binary floating point, so the
approximation carries a small error (within the documented relative error
bound of 1.5 times 2 to the -12). -/
def rcpW : ℚ → ℚ := fun s => if s = 3 then 1 / 3 - 1 / 8192 else 0

/-- Closed form of the odd-times-odd geometric product, proved from the
structure-constant definition. -/
theorem gpOO_eq (X Y : Od) : gpOO X Y = Ev.mk
    (X.e1 * Y.e1 + X.e2 * Y.e2 + X.e3 * Y.e3 - X.e123 * Y.e123)
    (X.e0 * Y.e1 - X.e1 * Y.e0 - X.e2 * Y.e021 + X.e3 * Y.e013
      - X.e021 * Y.e2 + X.e013 * Y.e3 - X.e123 * Y.e032 + X.e032 * Y.e123)
    (X.e0 * Y.e2 - X.e2 * Y.e0 + X.e1 * Y.e021 - X.e3 * Y.e032
      + X.e021 * Y.e1 - X.e032 * Y.e3 - X.e123 * Y.e013 + X.e013 * Y.e123)
    (X.e0 * Y.e3 - X.e3 * Y.e0 - X.e1 * Y.e013 + X.e2 * Y.e032
      - X.e013 * Y.e1 + X.e032 * Y.e2 - X.e123 * Y.e021 + X.e021 * Y.e123)
    (X.e1 * Y.e2 - X.e2 * Y.e1 + X.e3 * Y.e123 + X.e123 * Y.e3)
    (X.e3 * Y.e1 - X.e1 * Y.e3 + X.e2 * Y.e123 + X.e123 * Y.e2)
    (X.e2 * Y.e3 - X.e3 * Y.e2 + X.e1 * Y.e123 + X.e123 * Y.e1)
    (X.e0 * Y.e123 + X.e1 * Y.e032 + X.e2 * Y.e013 + X.e3 * Y.e021
      - X.e021 * Y.e3 - X.e013 * Y.e2 - X.e032 * Y.e1 - X.e123 * Y.e0) := by
  simp only [gpOO, evOfN, gpN, Finset.sum_range_succ, Finset.sum_range_zero,
    Ev.mk.injEq]
  norm_num [odN, gsign, invCount, bitn, x4]
  repeat' apply And.intro
  all_goals ring

/-- Closed form of the even-times-even geometric product, proved from the
structure-constant definition. -/
theorem gpEE_eq (M N : Ev) : gpEE M N = Ev.mk
    (M.s * N.s - M.e23 * N.e23 - M.e31 * N.e31 - M.e12 * N.e12)
    (M.s * N.e01 + M.e01 * N.s - M.e31 * N.e03 + M.e12 * N.e02
      - M.e02 * N.e12 + M.e03 * N.e31 - M.e0123 * N.e23 - M.e23 * N.e0123)
    (M.s * N.e02 + M.e02 * N.s + M.e23 * N.e03 - M.e12 * N.e01
      + M.e01 * N.e12 - M.e03 * N.e23 - M.e0123 * N.e31 - M.e31 * N.e0123)
    (M.s * N.e03 + M.e03 * N.s - M.e23 * N.e02 + M.e31 * N.e01
      + M.e02 * N.e23 - M.e01 * N.e31 - M.e0123 * N.e12 - M.e12 * N.e0123)
    (M.s * N.e12 + M.e12 * N.s + M.e31 * N.e23 - M.e23 * N.e31)
    (M.s * N.e31 + M.e31 * N.s + M.e23 * N.e12 - M.e12 * N.e23)
    (M.s * N.e23 + M.e23 * N.s + M.e12 * N.e31 - M.e31 * N.e12)
    (M.s * N.e0123 + M.e0123 * N.s + M.e23 * N.e01 + M.e31 * N.e02
      + M.e12 * N.e03 + M.e01 * N.e23 + M.e02 * N.e31 + M.e03 * N.e12) := by
  simp only [gpEE, evOfN, gpN, Finset.sum_range_succ, Finset.sum_range_zero,
    Ev.mk.injEq]
  norm_num [evN, gsign, invCount, bitn, x4]
  repeat' apply And.intro
  all_goals ring

/-- Closed form of the product of an even element with a plane (a pure
vector), proved from the structure-constant definition. -/
theorem gpEO_plane_eq (M : Ev) (p : plane) : gpEO M (planeOd p) = Od.mk
    (M.s * p.l0 + M.e01 * p.l1 + M.e02 * p.l2 + M.e03 * p.l3)
    (M.s * p.l1 + M.e12 * p.l2 - M.e31 * p.l3)
    (M.s * p.l2 - M.e12 * p.l1 + M.e23 * p.l3)
    (M.s * p.l3 + M.e31 * p.l1 - M.e23 * p.l2)
    (-(M.e01 * p.l2) + M.e02 * p.l1 - M.e12 * p.l0 - M.e0123 * p.l3)
    (M.e01 * p.l3 - M.e03 * p.l1 - M.e31 * p.l0 - M.e0123 * p.l2)
    (-(M.e02 * p.l3) + M.e03 * p.l2 - M.e23 * p.l0 - M.e0123 * p.l1)
    (M.e12 * p.l3 + M.e31 * p.l2 + M.e23 * p.l1) := by
  simp only [gpEO, odOfN, gpN, Finset.sum_range_succ, Finset.sum_range_zero,
    Od.mk.injEq]
  norm_num [evN, odN, planeOd, gsign, invCount, bitn, x4]
  repeat' apply And.intro
  all_goals ring

/-- Closed form of the product of a plane (a pure vector) with an even
element, proved from the structure-constant definition. -/
theorem gpOE_plane_eq (p : plane) (M : Ev) : gpOE (planeOd p) M = Od.mk
    (M.s * p.l0 - M.e01 * p.l1 - M.e02 * p.l2 - M.e03 * p.l3)
    (M.s * p.l1 - M.e12 * p.l2 + M.e31 * p.l3)
    (M.s * p.l2 + M.e12 * p.l1 - M.e23 * p.l3)
    (M.s * p.l3 - M.e31 * p.l1 + M.e23 * p.l2)
    (-(M.e12 * p.l0) + M.e02 * p.l1 - M.e01 * p.l2 + M.e0123 * p.l3)
    (-(M.e31 * p.l0) - M.e03 * p.l1 + M.e0123 * p.l2 + M.e01 * p.l3)
    (-(M.e23 * p.l0) + M.e0123 * p.l1 + M.e03 * p.l2 - M.e02 * p.l3)
    (M.e23 * p.l1 + M.e31 * p.l2 + M.e12 * p.l3) := by
  simp only [gpOE, odOfN, gpN, Finset.sum_range_succ, Finset.sum_range_zero,
    Od.mk.injEq]
  norm_num [evN, odN, planeOd, gsign, invCount, bitn, x4]
  repeat' apply And.intro
  all_goals ring

/-- Validation of the model against ground-truth scenarios 1 and 4 of the
spec (the `plane*plane` and `line*line` test cases): the structure-constant
product reproduces the literal test expectations. -/
theorem groundTruth_pp_ll :
    planeMulPlane (plane.ofABCD 1 2 3 4) (plane.ofABCD 2 3 (-1) (-2))
        = motor.mk 5 (-11) 7 (-1) 10 16 2 0
      ∧ lineMulLine (line.mk 1 0 0 3 2 1) (line.mk 0 1 0 4 1 (-2))
        = motor.mk (-12) 5 (-10) 5 1 (-2) (-4) 6 := by
  rw [planeMulPlane, lineMulLine, gpOO_eq, gpEE_eq]
  norm_num [planeOd, plane.ofABCD, lineEv, motorOfEv]

/-- Closed form of a single plane-through-plane reflection `p q p`: the
classical formula `2 (p . q) p - (p . p) q` on the non-degenerate part,
extended to the degenerate coefficient. -/
theorem applyPP_eq (p q : plane) : planeApplyPlane p q = plane.mk
    (2 * (p.l1 * q.l1 + p.l2 * q.l2 + p.l3 * q.l3) * p.l0
      - (p.l1 ^ 2 + p.l2 ^ 2 + p.l3 ^ 2) * q.l0)
    (2 * (p.l1 * q.l1 + p.l2 * q.l2 + p.l3 * q.l3) * p.l1
      - (p.l1 ^ 2 + p.l2 ^ 2 + p.l3 ^ 2) * q.l1)
    (2 * (p.l1 * q.l1 + p.l2 * q.l2 + p.l3 * q.l3) * p.l2
      - (p.l1 ^ 2 + p.l2 ^ 2 + p.l3 ^ 2) * q.l2)
    (2 * (p.l1 * q.l1 + p.l2 * q.l2 + p.l3 * q.l3) * p.l3
      - (p.l1 ^ 2 + p.l2 ^ 2 + p.l3 ^ 2) * q.l3) := by
  rw [planeApplyPlane, gpOO_eq, gpEO_plane_eq]
  simp only [planeOfOd, planeOd, plane.mk.injEq]
  repeat' apply And.intro
  all_goals ring

/-- Closed form of a single point-through-plane reflection `p P p`. -/
theorem applyPPt_eq (p : plane) (P : point) : planeApplyPoint p P = point.mk
    ((p.l1 ^ 2 + p.l2 ^ 2 + p.l3 ^ 2) * P.x
      - 2 * p.l1 * (p.l1 * P.x + p.l2 * P.y + p.l3 * P.z + p.l0 * P.w))
    ((p.l1 ^ 2 + p.l2 ^ 2 + p.l3 ^ 2) * P.y
      - 2 * p.l2 * (p.l1 * P.x + p.l2 * P.y + p.l3 * P.z + p.l0 * P.w))
    ((p.l1 ^ 2 + p.l2 ^ 2 + p.l3 ^ 2) * P.z
      - 2 * p.l3 * (p.l1 * P.x + p.l2 * P.y + p.l3 * P.z + p.l0 * P.w))
    ((p.l1 ^ 2 + p.l2 ^ 2 + p.l3 ^ 2) * P.w) := by
  rw [planeApplyPoint, gpOO_eq, gpEO_plane_eq]
  simp only [pointOfOd, planeOd, pointOd, point.mk.injEq]
  repeat' apply And.intro
  all_goals ring

/-- Closed form of a single line-through-plane reflection `p l p`. -/
theorem applyPL_eq (p : plane) (l : line) : planeApplyLine p l = line.mk
    ((p.l1 ^ 2 + p.l2 ^ 2 + p.l3 ^ 2) * l.e01
      - 2 * p.l1 * (p.l1 * l.e01 + p.l2 * l.e02 + p.l3 * l.e03)
      + 2 * p.l0 * (p.l2 * l.e12 - p.l3 * l.e31))
    ((p.l1 ^ 2 + p.l2 ^ 2 + p.l3 ^ 2) * l.e02
      - 2 * p.l2 * (p.l1 * l.e01 + p.l2 * l.e02 + p.l3 * l.e03)
      + 2 * p.l0 * (p.l3 * l.e23 - p.l1 * l.e12))
    ((p.l1 ^ 2 + p.l2 ^ 2 + p.l3 ^ 2) * l.e03
      - 2 * p.l3 * (p.l1 * l.e01 + p.l2 * l.e02 + p.l3 * l.e03)
      + 2 * p.l0 * (p.l1 * l.e31 - p.l2 * l.e23))
    (2 * p.l1 * (p.l1 * l.e23 + p.l2 * l.e31 + p.l3 * l.e12)
      - (p.l1 ^ 2 + p.l2 ^ 2 + p.l3 ^ 2) * l.e23)
    (2 * p.l2 * (p.l1 * l.e23 + p.l2 * l.e31 + p.l3 * l.e12)
      - (p.l1 ^ 2 + p.l2 ^ 2 + p.l3 ^ 2) * l.e31)
    (2 * p.l3 * (p.l1 * l.e23 + p.l2 * l.e31 + p.l3 * l.e12)
      - (p.l1 ^ 2 + p.l2 ^ 2 + p.l3 ^ 2) * l.e12) := by
  rw [planeApplyLine, gpOE_plane_eq, gpOO_eq]
  simp only [lineOfEv, lineEv, planeOd, line.mk.injEq]
  repeat' apply And.intro
  all_goals ring

/-- Claim C4.  Reflecting any plane, line or point twice through the same
normalized plane (vector part of unit square norm) gives back the original
entity exactly, componentwise. -/
theorem C4_double_reflection (p : plane)
    (h : p.l1 ^ 2 + p.l2 ^ 2 + p.l3 ^ 2 = 1) (q : plane) (l : line) (P : point) :
    planeApplyPlane p (planeApplyPlane p q) = q
      ∧ planeApplyLine p (planeApplyLine p l) = l
      ∧ planeApplyPoint p (planeApplyPoint p P) = P := by
  obtain ⟨q0, q1, q2, q3⟩ := q
  obtain ⟨m01, m02, m03, m23, m31, m12⟩ := l
  obtain ⟨Px, Py, Pz, Pw⟩ := P
  refine ⟨?_, ?_, ?_⟩
  · rw [applyPP_eq, applyPP_eq]
    simp only [plane.mk.injEq]
    refine ⟨?_, ?_, ?_, ?_⟩
    · linear_combination q0 * (p.l1 ^ 2 + p.l2 ^ 2 + p.l3 ^ 2 + 1) * h
    · linear_combination q1 * (p.l1 ^ 2 + p.l2 ^ 2 + p.l3 ^ 2 + 1) * h
    · linear_combination q2 * (p.l1 ^ 2 + p.l2 ^ 2 + p.l3 ^ 2 + 1) * h
    · linear_combination q3 * (p.l1 ^ 2 + p.l2 ^ 2 + p.l3 ^ 2 + 1) * h
  · rw [applyPL_eq, applyPL_eq]
    simp only [line.mk.injEq]
    refine ⟨?_, ?_, ?_, ?_, ?_, ?_⟩
    · linear_combination m01 * (p.l1 ^ 2 + p.l2 ^ 2 + p.l3 ^ 2 + 1) * h
    · linear_combination m02 * (p.l1 ^ 2 + p.l2 ^ 2 + p.l3 ^ 2 + 1) * h
    · linear_combination m03 * (p.l1 ^ 2 + p.l2 ^ 2 + p.l3 ^ 2 + 1) * h
    · linear_combination m23 * (p.l1 ^ 2 + p.l2 ^ 2 + p.l3 ^ 2 + 1) * h
    · linear_combination m31 * (p.l1 ^ 2 + p.l2 ^ 2 + p.l3 ^ 2 + 1) * h
    · linear_combination m12 * (p.l1 ^ 2 + p.l2 ^ 2 + p.l3 ^ 2 + 1) * h
  · rw [applyPPt_eq, applyPPt_eq]
    simp only [point.mk.injEq]
    refine ⟨?_, ?_, ?_, ?_⟩
    · linear_combination Px * (p.l1 ^ 2 + p.l2 ^ 2 + p.l3 ^ 2 + 1) * h
    · linear_combination Py * (p.l1 ^ 2 + p.l2 ^ 2 + p.l3 ^ 2 + 1) * h
    · linear_combination Pz * (p.l1 ^ 2 + p.l2 ^ 2 + p.l3 ^ 2 + 1) * h
    · linear_combination Pw * (p.l1 ^ 2 + p.l2 ^ 2 + p.l3 ^ 2 + 1) * h

/-- Claim C1, counterexample.  The rotor `1 + e23` (a genuine rotation about
the x-axis, not the identity) and the translator `1 + e01` (a translation
along x) commute: `r*t = t*r` although the rotor is not the identity, so the
claim that the two compositions differ for every non-identity rotor is
false. -/
theorem C1_counterexample :
    rotor.mk 1 1 0 0 ≠ rotorIdentity
      ∧ rotorMulTranslator (rotor.mk 1 1 0 0) (translator.mk 1 0 0)
        = translatorMulRotor (translator.mk 1 0 0) (rotor.mk 1 1 0 0) := by
  constructor
  · intro h
    rw [rotorIdentity, rotor.mk.injEq] at h
    exact absurd h.2.1 (by norm_num)
  · rw [rotorMulTranslator, translatorMulRotor, gpEE_eq, gpEE_eq]
    norm_num [rotorEv, translatorEv, motorOfEv]

/-- Claim C1, amended.  The compositions `r*t` and `t*r` coincide exactly
when the cross product of the rotor's bivector `(e23, e31, e12)` with the
translator's direction `(e01, e02, e03)` vanishes (rotation axis parallel to
translation direction, which includes every bivector-free rotor and the
identity translator); they differ in at least one coefficient whenever that
cross product is non-zero. -/
theorem C1_amended_commutation (r : rotor) (t : translator) :
    rotorMulTranslator r t = translatorMulRotor t r ↔
      (r.e12 * t.e02 = r.e31 * t.e03 ∧ r.e23 * t.e03 = r.e12 * t.e01
        ∧ r.e31 * t.e01 = r.e23 * t.e02) := by
  rw [rotorMulTranslator, translatorMulRotor, gpEE_eq, gpEE_eq]
  simp only [motorOfEv, rotorEv, translatorEv, motor.mk.injEq]
  norm_num
  constructor
  · intro h
    exact ⟨by linear_combination h.1 / 2, by linear_combination h.2.1 / 2,
      by linear_combination h.2.2.1 / 2⟩
  · intro h
    exact ⟨by linear_combination 2 * h.1, by linear_combination 2 * h.2.1,
      by linear_combination 2 * h.2.2, by ring⟩

/-- Claim C5.  For every plane and point the products `p*P` and `P*p` agree
on the scalar and all six bivector coefficients and differ exactly by the
sign of the pseudoscalar e0123; the ground-truth evaluations
`Plane{1,2,3,4} * Point{-2,1,4}` (e0123 = 16) and
`Point{-2,1,4} * Plane{1,2,3,4}` (e0123 = -16) come out exactly as the test
file records them. -/
theorem C5_plane_point_sign_flip :
    (∀ (p : plane) (P : point),
      (planeMulPoint p P).s = (pointMulPlane P p).s
        ∧ (planeMulPoint p P).e01 = (pointMulPlane P p).e01
        ∧ (planeMulPoint p P).e02 = (pointMulPlane P p).e02
        ∧ (planeMulPoint p P).e03 = (pointMulPlane P p).e03
        ∧ (planeMulPoint p P).e12 = (pointMulPlane P p).e12
        ∧ (planeMulPoint p P).e31 = (pointMulPlane P p).e31
        ∧ (planeMulPoint p P).e23 = (pointMulPlane P p).e23
        ∧ (planeMulPoint p P).e0123 = -(pointMulPlane P p).e0123)
      ∧ planeMulPoint (plane.ofABCD 1 2 3 4) (point.mk3 (-2) 1 4)
          = motor.mk 0 1 2 3 (-5) 10 (-5) 16
      ∧ pointMulPlane (point.mk3 (-2) 1 4) (plane.ofABCD 1 2 3 4)
          = motor.mk 0 1 2 3 (-5) 10 (-5) (-16) := by
  refine ⟨fun p P => ?_, ?_, ?_⟩
  · rw [planeMulPoint, pointMulPlane, gpOO_eq, gpOO_eq]
    simp only [motorOfEv, planeOd, pointOd]
    repeat' apply And.intro
    all_goals ring
  · rw [planeMulPoint, gpOO_eq]
    norm_num [motorOfEv, planeOd, pointOd, plane.ofABCD, point.mk3]
  · rw [pointMulPlane, gpOO_eq]
    norm_num [motorOfEv, planeOd, pointOd, plane.ofABCD, point.mk3]

/-- Claim C6.  The product of two points never carries a rotational bivector
or pseudoscalar part: e23, e31, e12 and e0123 vanish identically, and the
ground-truth evaluation `Point{1,2,3} * Point{-2,1,4}` is the motor with
scalar -1 and translational part (3, 1, -1). -/
theorem C6_point_point :
    (∀ P Q : point,
      (pointMulPoint P Q).e23 = 0 ∧ (pointMulPoint P Q).e31 = 0
        ∧ (pointMulPoint P Q).e12 = 0 ∧ (pointMulPoint P Q).e0123 = 0)
      ∧ pointMulPoint (point.mk3 1 2 3) (point.mk3 (-2) 1 4)
          = motor.mk (-1) 0 0 0 3 1 (-1) 0 := by
  constructor
  · intro P Q
    rw [pointMulPoint, gpOO_eq]
    simp only [motorOfEv, pointOd]
    norm_num
  · rw [pointMulPoint, gpOO_eq]
    norm_num [motorOfEv, pointOd, point.mk3]

/-- Claim C7.  The ground-truth motor composition:
`Motor{2,3,4,5,6,7,8,9} * Motor{6,7,8,9,10,11,12,13}` equals the motor with
coefficients (-86, 36, 32, 52, -38, -76, -66, 384) in the order scalar, e23,
e31, e12, e01, e02, e03, e0123. -/
theorem C7_motor_motor :
    motorMulMotor (motor.mk 2 3 4 5 6 7 8 9) (motor.mk 6 7 8 9 10 11 12 13)
      = motor.mk (-86) 36 32 52 (-38) (-76) (-66) 384 := by
  rw [motorMulMotor, gpEE_eq]
  norm_num [motorOfEv]

/-- Witness for C4 at a concrete normalized plane: the plane with vector
part (3/5, 4/5, 0) and d = 7, applied twice to concrete entities. -/
theorem C4_witness :
    ((plane.ofABCD (3 / 5) (4 / 5) 0 7).l1 ^ 2
        + (plane.ofABCD (3 / 5) (4 / 5) 0 7).l2 ^ 2
        + (plane.ofABCD (3 / 5) (4 / 5) 0 7).l3 ^ 2 = 1)
      ∧ (planeApplyPlane (plane.ofABCD (3 / 5) (4 / 5) 0 7)
            (planeApplyPlane (plane.ofABCD (3 / 5) (4 / 5) 0 7)
              (plane.ofABCD 1 2 3 4)) = plane.ofABCD 1 2 3 4
          ∧ planeApplyLine (plane.ofABCD (3 / 5) (4 / 5) 0 7)
            (planeApplyLine (plane.ofABCD (3 / 5) (4 / 5) 0 7)
              (line.mk 1 2 3 4 5 6)) = line.mk 1 2 3 4 5 6
          ∧ planeApplyPoint (plane.ofABCD (3 / 5) (4 / 5) 0 7)
            (planeApplyPoint (plane.ofABCD (3 / 5) (4 / 5) 0 7)
              (point.mk3 (-2) 1 4)) = point.mk3 (-2) 1 4) :=
  ⟨by norm_num [plane.ofABCD],
    C4_double_reflection (plane.ofABCD (3 / 5) (4 / 5) 0 7)
      (by norm_num [plane.ofABCD]) (plane.ofABCD 1 2 3 4) (line.mk 1 2 3 4 5 6)
      (point.mk3 (-2) 1 4)⟩

/-- Claim C2, counterexample.  For the plane with a = 2, b = c = 0, d = 6
and a reciprocal square root that is exact at 4 (value 1/2), `normalize()`
(blend path) multiplies a, b, c by the factor 1/2 but leaves d at 6 instead
of scaling it to 3 by the same uniform factor: the degenerate coefficient is
not multiplied by the same factor as the others, contrary to the claim. -/
theorem C2_counterexample :
    (plane.normalizeBlend rsq0 (plane.ofABCD 2 0 0 6)).l1
        = 1 / 2 * (plane.ofABCD 2 0 0 6).l1
      ∧ (plane.normalizeBlend rsq0 (plane.ofABCD 2 0 0 6)).l2
        = 1 / 2 * (plane.ofABCD 2 0 0 6).l2
      ∧ (plane.normalizeBlend rsq0 (plane.ofABCD 2 0 0 6)).l3
        = 1 / 2 * (plane.ofABCD 2 0 0 6).l3
      ∧ (plane.normalizeBlend rsq0 (plane.ofABCD 2 0 0 6)).l0
        ≠ 1 / 2 * (plane.ofABCD 2 0 0 6).l0 := by
  norm_num [plane.normalizeBlend, rsq0, hi_dp_bc, plane.ofABCD]

/-- Claim C2, amended.  `plane::normalize()` (blend path) multiplies the a,
b, c coefficients by the approximate inverse norm and leaves the degenerate
d coefficient exactly unchanged (scale factor forced to exactly 1 by the
one-lane correction); when the approximate primitives are exact at the
relevant inputs, `norm()` equals exactly 1 afterwards (d being excluded from
the norm computation). -/
theorem C2_amended_normalize (rsq rc : ℚ → ℚ) (p : plane) (r : ℚ)
    (hr : 0 < r) (hrr : r * r = hi_dp p) (hrs : rsq (hi_dp_bc p) * r = 1)
    (h1 : rsq 1 = 1) (hc : rc 1 = 1) :
    (plane.normalizeBlend rsq p).l0 = p.l0
      ∧ (plane.normalizeBlend rsq p).l1 = rsq (hi_dp_bc p) * p.l1
      ∧ (plane.normalizeBlend rsq p).l2 = rsq (hi_dp_bc p) * p.l2
      ∧ (plane.normalizeBlend rsq p).l3 = rsq (hi_dp_bc p) * p.l3
      ∧ plane.norm rsq rc (plane.normalizeBlend rsq p) = 1 := by
  have hdp : hi_dp (plane.normalizeBlend rsq p) = 1 := by
    simp only [hi_dp, plane.normalizeBlend]
    rw [hi_dp] at hrr
    linear_combination (-(rsq (hi_dp_bc p) ^ 2)) * hrr
      + (rsq (hi_dp_bc p) * r + 1) * hrs
  refine ⟨by simp [plane.normalizeBlend], rfl, rfl, rfl, ?_⟩
  rw [plane.norm, hdp, h1, hc]

/-- Witness for the amended C2 at the plane with vector part (3, 4, 0) and
d = 7, whose vector norm 5 and its reciprocal are exactly representable. -/
theorem C2_witness :
    ((0 : ℚ) < 5 ∧ (5 : ℚ) * 5 = hi_dp (plane.ofABCD 3 4 0 7)
        ∧ rsqW (hi_dp_bc (plane.ofABCD 3 4 0 7)) * 5 = 1
        ∧ rsqW 1 = 1 ∧ rcW 1 = 1)
      ∧ ((plane.normalizeBlend rsqW (plane.ofABCD 3 4 0 7)).l0
            = (plane.ofABCD 3 4 0 7).l0
        ∧ (plane.normalizeBlend rsqW (plane.ofABCD 3 4 0 7)).l1
            = rsqW (hi_dp_bc (plane.ofABCD 3 4 0 7))
              * (plane.ofABCD 3 4 0 7).l1
        ∧ (plane.normalizeBlend rsqW (plane.ofABCD 3 4 0 7)).l2
            = rsqW (hi_dp_bc (plane.ofABCD 3 4 0 7))
              * (plane.ofABCD 3 4 0 7).l2
        ∧ (plane.normalizeBlend rsqW (plane.ofABCD 3 4 0 7)).l3
            = rsqW (hi_dp_bc (plane.ofABCD 3 4 0 7))
              * (plane.ofABCD 3 4 0 7).l3
        ∧ plane.norm rsqW rcW (plane.normalizeBlend rsqW (plane.ofABCD 3 4 0 7))
            = 1) :=
  ⟨⟨by norm_num, by norm_num [hi_dp, plane.ofABCD],
      by norm_num [hi_dp_bc, plane.ofABCD, rsqW], by norm_num [rsqW],
      by norm_num [rcW]⟩,
    C2_amended_normalize rsqW rcW (plane.ofABCD 3 4 0 7) 5 (by norm_num)
      (by norm_num [hi_dp, plane.ofABCD])
      (by norm_num [hi_dp_bc, plane.ofABCD, rsqW]) (by norm_num [rsqW])
      (by norm_num [rcW])⟩

/-- Claim C3, evaluation at the failing input.  For the plane with a = 2,
b = c = 0, d = 6 and the reciprocal square root exact at 4 (value 1/2), the
`KLEIN_SSE_4_1` blend path of `plane::normalize()` yields (d, a, b, c) =
(6, 1, 0, 0) while the portable add-based fallback yields (9, 1, 0, 0): the
fallback multiplies d by `rsqrt + 1` = 3/2 instead of forcing the factor to
1, so the two build paths are not value-equivalent, contradicting the
spec. -/
theorem C3_divergence :
    plane.normalizeBlend rsq0 (plane.ofABCD 2 0 0 6) = plane.mk 6 1 0 0
      ∧ plane.normalizeAdd rsq0 (plane.ofABCD 2 0 0 6) = plane.mk 9 1 0 0
      ∧ plane.normalizeBlend rsq0 (plane.ofABCD 2 0 0 6)
        ≠ plane.normalizeAdd rsq0 (plane.ofABCD 2 0 0 6) := by
  norm_num [plane.normalizeBlend, plane.normalizeAdd, rsq0, hi_dp_bc,
    plane.ofABCD, plane.mk.injEq]

/-- Claim C8.  `plane::norm()` is the approximate reciprocal of the
approximate reciprocal square root of a^2 + b^2 + c^2; it does not depend on
the d coefficient (two planes differing only in d have equal norm), and when
the two approximate primitives are exact at the relevant inputs it equals
the true Euclidean magnitude r of the vector part. -/
theorem C8_norm (rsq rc : ℚ → ℚ) (p q : plane) (r : ℚ)
    (h1 : p.l1 = q.l1) (h2 : p.l2 = q.l2) (h3 : p.l3 = q.l3) (hr : 0 ≤ r)
    (hrr : r * r = hi_dp p) (hrs : rsq (hi_dp p) * r = 1)
    (hrc : rc (rsq (hi_dp p)) * rsq (hi_dp p) = 1) :
    plane.norm rsq rc p = rc (rsq (p.l1 * p.l1 + p.l2 * p.l2 + p.l3 * p.l3))
      ∧ plane.norm rsq rc p = plane.norm rsq rc q
      ∧ plane.norm rsq rc p = r := by
  refine ⟨rfl, by rw [plane.norm, plane.norm, hi_dp, hi_dp, h1, h2, h3], ?_⟩
  have := hrc
  calc rc (rsq (hi_dp p)) = rc (rsq (hi_dp p)) * (rsq (hi_dp p) * r) := by
        rw [hrs]; ring
    _ = rc (rsq (hi_dp p)) * rsq (hi_dp p) * r := by ring
    _ = r := by rw [hrc]; ring

/-- Witness for C8 at the planes with vector part (3, 4, 0) and d = 7
respectively d = -2, vector norm exactly 5. -/
theorem C8_witness :
    ((plane.ofABCD 3 4 0 7).l1 = (plane.ofABCD 3 4 0 (-2)).l1
        ∧ (plane.ofABCD 3 4 0 7).l2 = (plane.ofABCD 3 4 0 (-2)).l2
        ∧ (plane.ofABCD 3 4 0 7).l3 = (plane.ofABCD 3 4 0 (-2)).l3
        ∧ (0 : ℚ) ≤ 5 ∧ (5 : ℚ) * 5 = hi_dp (plane.ofABCD 3 4 0 7)
        ∧ rsqW (hi_dp (plane.ofABCD 3 4 0 7)) * 5 = 1
        ∧ rcW5 (rsqW (hi_dp (plane.ofABCD 3 4 0 7)))
            * rsqW (hi_dp (plane.ofABCD 3 4 0 7)) = 1)
      ∧ (plane.norm rsqW rcW5 (plane.ofABCD 3 4 0 7)
          = rcW5 (rsqW ((plane.ofABCD 3 4 0 7).l1 * (plane.ofABCD 3 4 0 7).l1
            + (plane.ofABCD 3 4 0 7).l2 * (plane.ofABCD 3 4 0 7).l2
            + (plane.ofABCD 3 4 0 7).l3 * (plane.ofABCD 3 4 0 7).l3))
        ∧ plane.norm rsqW rcW5 (plane.ofABCD 3 4 0 7)
          = plane.norm rsqW rcW5 (plane.ofABCD 3 4 0 (-2))
        ∧ plane.norm rsqW rcW5 (plane.ofABCD 3 4 0 7) = 5) :=
  ⟨⟨by norm_num [plane.ofABCD], by norm_num [plane.ofABCD],
      by norm_num [plane.ofABCD], by norm_num,
      by norm_num [hi_dp, plane.ofABCD],
      by norm_num [hi_dp, plane.ofABCD, rsqW],
      by norm_num [hi_dp, plane.ofABCD, rsqW, rcW5]⟩,
    C8_norm rsqW rcW5 (plane.ofABCD 3 4 0 7) (plane.ofABCD 3 4 0 (-2)) 5
      (by norm_num [plane.ofABCD]) (by norm_num [plane.ofABCD])
      (by norm_num [plane.ofABCD]) (by norm_num)
      (by norm_num [hi_dp, plane.ofABCD])
      (by norm_num [hi_dp, plane.ofABCD, rsqW])
      (by norm_num [hi_dp, plane.ofABCD, rsqW, rcW5])⟩

/-- Claim C9.  The bulk-load constructor and `load()` read the four packed
values in the fixed order (d, a, b, c), lowest address first, so that
afterwards `d() = data[0]`, `x() = data[1]`, `y() = data[2]`,
`z() = data[3]`; and on every plane the synonym accessor pairs coincide:
`x() = e1()`, `y() = e2()`, `z() = e3()`, `d() = e0()`. -/
theorem C9_load_accessors :
    (∀ data : Fin 4 → ℚ,
      (plane.ofData data).d = data 0 ∧ (plane.ofData data).x = data 1
        ∧ (plane.ofData data).y = data 2 ∧ (plane.ofData data).z = data 3
        ∧ (plane.load data).d = data 0 ∧ (plane.load data).x = data 1
        ∧ (plane.load data).y = data 2 ∧ (plane.load data).z = data 3)
      ∧ ∀ p : plane, p.x = p.e1 ∧ p.y = p.e2 ∧ p.z = p.e3 ∧ p.d = p.e0 :=
  ⟨fun _ => ⟨rfl, rfl, rfl, rfl, rfl, rfl, rfl, rfl⟩,
    fun _ => ⟨rfl, rfl, rfl, rfl⟩⟩

/-- Claim C10.  Scalar division of a plane is multiplication of every lane
by the approximate reciprocal of the divisor (for both float and int
divisors), so whenever the approximate reciprocal of 3 misses the exact
value, `(p * 3) / 3` fails to restore a plane with a unit coefficient. -/
theorem C10_div_rcp (rc : ℚ → ℚ) (p : plane) (s : ℚ) (n : ℤ)
    (hne : rc 3 * 3 ≠ 1) :
    plane.divScalar rc p s = plane.mulScalar p (rc s)
      ∧ plane.divScalarInt rc p n = plane.mulScalar p (rc (n : ℚ))
      ∧ plane.divScalar rc (plane.mulScalar (plane.ofABCD 1 0 0 0) 3) 3
        ≠ plane.ofABCD 1 0 0 0 := by
  refine ⟨rfl, rfl, fun hEq => hne ?_⟩
  have h1 := congrArg plane.l1 hEq
  simp only [plane.divScalar, plane.mulScalar, plane.ofABCD] at h1
  linear_combination h1

/-- Witness for C10 with the approximate reciprocal of 3 off by 1/8192
(within the documented relative error bound). -/
theorem C10_witness :
    (rcpW 3 * 3 ≠ 1)
      ∧ (plane.divScalar rcpW (plane.ofABCD 5 6 7 8) 2
          = plane.mulScalar (plane.ofABCD 5 6 7 8) (rcpW 2)
        ∧ plane.divScalarInt rcpW (plane.ofABCD 5 6 7 8) 4
          = plane.mulScalar (plane.ofABCD 5 6 7 8) (rcpW ((4 : ℤ) : ℚ))
        ∧ plane.divScalar rcpW (plane.mulScalar (plane.ofABCD 1 0 0 0) 3) 3
          ≠ plane.ofABCD 1 0 0 0) :=
  ⟨by norm_num [rcpW],
    C10_div_rcp rcpW (plane.ofABCD 5 6 7 8) 2 4 (by norm_num [rcpW])⟩

end Klein
